import Mathlib

/-!
Verification development for the embedded command server of
src/trellis_for_blender.py (class BlenderMCPServer, lines 694-864).

The server accumulates raw bytes from a non-blocking socket in a receive
buffer, attempts to decode the whole buffer as UTF-8 and parse it as one
JSON value after each read, dispatches the decoded command envelope through a
handler registry, and writes a response envelope back.

Shallow embedding conventions:
- Bytes and Unicode code points are plain Nat values.
- Python str values are List Nat of code points; the helper lit turns an
  ASCII Lean string literal into such a list (for ASCII the code points
  coincide with the UTF-8 bytes).
- json.loads is modelled byte-for-byte: strict UTF-8 decoding first
  (bytes.decode), then a fuel-based recursive-descent JSON parser that
  accepts exactly one value with surrounding whitespace, mirroring the
  CPython json module grammar (objects, arrays, strings with escapes,
  numbers, true/false/null, NaN/Infinity).  Parse failure is None.
- Handlers are opaque capabilities: an environment maps a handler name and
  a params value to either a result (normal return) or an exception text
  (raise).  Python exceptions are the error branch of Except.
- Socket and timer effects (close, unregister, prints) are recorded as an
  explicit event list.
-/

/-- A decoded JSON value as produced by json.loads.  Object fields keep the
textual order of the source; duplicate keys are resolved last-wins by
pyGet, matching Python dict construction. -/
inductive JValue where
  | jnull : JValue
  | jtrue : JValue
  | jfalse : JValue
  | jnum (lex : List Nat) : JValue
  | jstr (s : List Nat) : JValue
  | jarr (elems : List JValue) : JValue
  | jobj (fields : List (List Nat × JValue)) : JValue

/-- Code points of an ASCII Lean string literal; used both for Python str
values and for ASCII byte strings (they coincide on ASCII). -/
def lit (s : String) : List Nat := s.data.map Char.toNat

/-- Python dict lookup for a decoded JSON object: duplicate keys collapse
with the last occurrence winning, as in CPython json object construction. -/
def pyGet (fields : List (List Nat × JValue)) (k : List Nat) : Option JValue :=
  ((fields.filter (fun p => p.1 = k)).getLast?).map (fun p => p.2)

/-- Strict UTF-8 decoding of a byte list into code points, modelling
bytes.decode("utf-8"): rejects lone continuation bytes, overlong forms,
surrogate code points, out-of-range lead bytes and truncated sequences
(a truncated final sequence raises UnicodeDecodeError in Python, hence
none here). -/
def utf8Decode : List Nat → Option (List Nat)
  | [] => some []
  | b :: rest =>
    if b < 128 then (utf8Decode rest).map (fun cs => b :: cs)
    else if 194 ≤ b ∧ b ≤ 223 then
      match rest with
      | b2 :: r2 =>
        if 128 ≤ b2 ∧ b2 ≤ 191 then
          (utf8Decode r2).map (fun cs => ((b - 192) * 64 + (b2 - 128)) :: cs)
        else none
      | [] => none
    else if 224 ≤ b ∧ b ≤ 239 then
      match rest with
      | b2 :: b3 :: r3 =>
        if (if b = 224 then 160 ≤ b2 ∧ b2 ≤ 191
            else if b = 237 then 128 ≤ b2 ∧ b2 ≤ 159
            else 128 ≤ b2 ∧ b2 ≤ 191) ∧ 128 ≤ b3 ∧ b3 ≤ 191 then
          (utf8Decode r3).map
            (fun cs => ((b - 224) * 4096 + (b2 - 128) * 64 + (b3 - 128)) :: cs)
        else none
      | _ => none
    else if 240 ≤ b ∧ b ≤ 244 then
      match rest with
      | b2 :: b3 :: b4 :: r4 =>
        if (if b = 240 then 144 ≤ b2 ∧ b2 ≤ 191
            else if b = 244 then 128 ≤ b2 ∧ b2 ≤ 143
            else 128 ≤ b2 ∧ b2 ≤ 191) ∧ 128 ≤ b3 ∧ b3 ≤ 191 ∧ 128 ≤ b4 ∧ b4 ≤ 191 then
          (utf8Decode r4).map
            (fun cs => ((b - 240) * 262144 + (b2 - 128) * 4096 + (b3 - 128) * 64 + (b4 - 128)) :: cs)
        else none
      | _ => none
    else none

/-- JSON insignificant whitespace (space, tab, newline, carriage return). -/
def isJsonWs (c : Nat) : Bool := c = 32 || c = 9 || c = 10 || c = 13

/-- Drop leading JSON whitespace code points. -/
def skipWs (l : List Nat) : List Nat := l.dropWhile isJsonWs

/-- Span of leading decimal digits. -/
def digitSpan (l : List Nat) : List Nat × List Nat :=
  l.span (fun c => 48 ≤ c && c ≤ 57)

/-- Optional fraction group of the CPython json number regex: a dot must be
followed by at least one digit, otherwise the group matches nothing. -/
def parseFrac (l : List Nat) : List Nat × List Nat :=
  match l with
  | 46 :: t =>
    match digitSpan t with
    | ([], _) => ([], l)
    | (ds, r) => (46 :: ds, r)
  | _ => ([], l)

/-- Optional exponent group of the CPython json number regex: e or E, an
optional sign, then at least one digit; otherwise it matches nothing. -/
def parseExpPart (l : List Nat) : List Nat × List Nat :=
  match l with
  | c :: t =>
    if c = 101 || c = 69 then
      match t with
      | s :: t2 =>
        if s = 43 || s = 45 then
          match digitSpan t2 with
          | ([], _) => ([], l)
          | (ds, r) => (c :: s :: ds, r)
        else
          match digitSpan t with
          | ([], _) => ([], l)
          | (ds, r) => (c :: ds, r)
      | [] => ([], l)
    else ([], l)
  | [] => ([], l)

/-- CPython json number scanner: an optional minus sign, an integer part
with no leading zeros, then the optional fraction and exponent groups.
Returns the matched lexeme and the rest of the input. -/
def parseNumber (l : List Nat) : Option (List Nat × List Nat) :=
  let p : List Nat × List Nat := match l with | 45 :: t => ([45], t) | _ => ([], l)
  match p.2 with
  | c :: t =>
    if c = 48 then
      let f := parseFrac t
      let e := parseExpPart f.2
      some (p.1 ++ [48] ++ f.1 ++ e.1, e.2)
    else if 49 ≤ c ∧ c ≤ 57 then
      let d := digitSpan t
      let f := parseFrac d.2
      let e := parseExpPart f.2
      some (p.1 ++ (c :: d.1) ++ f.1 ++ e.1, e.2)
    else none
  | [] => none

/-- Value of one hexadecimal digit code point, if any. -/
def hexVal (c : Nat) : Option Nat :=
  if 48 ≤ c ∧ c ≤ 57 then some (c - 48)
  else if 97 ≤ c ∧ c ≤ 102 then some (c - 87)
  else if 65 ≤ c ∧ c ≤ 70 then some (c - 55)
  else none

/-- Single-character JSON string escapes. -/
def escChar (e : Nat) : Option Nat :=
  if e = 34 then some 34
  else if e = 92 then some 92
  else if e = 47 then some 47
  else if e = 98 then some 8
  else if e = 102 then some 12
  else if e = 110 then some 10
  else if e = 114 then some 13
  else if e = 116 then some 9
  else none

/-- Body of a JSON string after the opening quote: content code points and
the rest of the input after the closing quote.  Unescaped control
characters below 0x20 are rejected (strict mode default of json.loads).
A \u escape yields its UTF-16 code unit; surrogate-pair recombination is
not modelled (no claim depends on it). -/
def parseStringBody : List Nat → Option (List Nat × List Nat)
  | [] => none
  | c :: rest =>
    if c = 34 then some ([], rest)
    else if c = 92 then
      match rest with
      | 117 :: h1 :: h2 :: h3 :: h4 :: r2 =>
        match hexVal h1, hexVal h2, hexVal h3, hexVal h4 with
        | some a, some b, some d, some e =>
          (parseStringBody r2).map (fun p => ((a * 4096 + b * 256 + d * 16 + e) :: p.1, p.2))
        | _, _, _, _ => none
      | e :: r2 =>
        match escChar e with
        | some ec => (parseStringBody r2).map (fun p => (ec :: p.1, p.2))
        | none => none
      | [] => none
    else if c < 32 then none
    else (parseStringBody rest).map (fun p => (c :: p.1, p.2))

/-- Parser mode: a single value, the members of an object after the opening
brace (with the fields parsed so far), or the elements of an array after
the opening bracket (with the elements parsed so far). -/
inductive PMode where
  | val : PMode
  | members (acc : List (List Nat × JValue)) : PMode
  | elems (acc : List JValue) : PMode

/-- Fuel-based recursive-descent JSON parser mirroring the CPython json
scanner.  In val mode the input must start directly with a value (callers
skip whitespace); object and array modes skip whitespace at the grammar
positions the CPython decoder does.  NaN, Infinity and -Infinity are
accepted, as by json.loads defaults. -/
def parseCore : Nat → PMode → List Nat → Option (JValue × List Nat)
  | 0, _, _ => none
  | Nat.succ fuel, PMode.val, l =>
    match l with
    | [] => none
    | c :: t =>
      if c = 34 then
        (parseStringBody t).map (fun p => (JValue.jstr p.1, p.2))
      else if c = 123 then
        match skipWs t with
        | 125 :: r => some (JValue.jobj [], r)
        | l2 => parseCore fuel (PMode.members []) l2
      else if c = 91 then
        match skipWs t with
        | 93 :: r => some (JValue.jarr [], r)
        | l2 => parseCore fuel (PMode.elems []) l2
      else if c = 116 then
        match t with
        | 114 :: 117 :: 101 :: r => some (JValue.jtrue, r)
        | _ => none
      else if c = 102 then
        match t with
        | 97 :: 108 :: 115 :: 101 :: r => some (JValue.jfalse, r)
        | _ => none
      else if c = 110 then
        match t with
        | 117 :: 108 :: 108 :: r => some (JValue.jnull, r)
        | _ => none
      else if c = 78 then
        match t with
        | 97 :: 78 :: r => some (JValue.jnum (lit "NaN"), r)
        | _ => none
      else if c = 73 then
        match t with
        | 110 :: 102 :: 105 :: 110 :: 105 :: 116 :: 121 :: r =>
          some (JValue.jnum (lit "Infinity"), r)
        | _ => none
      else if c = 45 then
        match parseNumber l with
        | some (lx, r) => some (JValue.jnum lx, r)
        | none =>
          match t with
          | 73 :: 110 :: 102 :: 105 :: 110 :: 105 :: 116 :: 121 :: r =>
            some (JValue.jnum (lit "-Infinity"), r)
          | _ => none
      else
        match parseNumber l with
        | some (lx, r) => some (JValue.jnum lx, r)
        | none => none
  | Nat.succ fuel, PMode.members acc, l =>
    match l with
    | 34 :: t =>
      match parseStringBody t with
      | none => none
      | some (key, r1) =>
        match skipWs r1 with
        | 58 :: r2 =>
          match parseCore fuel PMode.val (skipWs r2) with
          | none => none
          | some (v, r3) =>
            match skipWs r3 with
            | 44 :: r4 => parseCore fuel (PMode.members (acc ++ [(key, v)])) (skipWs r4)
            | 125 :: r4 => some (JValue.jobj (acc ++ [(key, v)]), r4)
            | _ => none
        | _ => none
    | _ => none
  | Nat.succ fuel, PMode.elems acc, l =>
    match parseCore fuel PMode.val l with
    | none => none
    | some (v, r1) =>
      match skipWs r1 with
      | 44 :: r2 => parseCore fuel (PMode.elems (acc ++ [v])) (skipWs r2)
      | 93 :: r2 => some (JValue.jarr (acc ++ [v]), r2)
      | _ => none

/-- Model of json.loads on a decoded text: skip leading whitespace, parse
exactly one value, and require that only whitespace remains (otherwise
CPython raises JSONDecodeError "Extra data").  Any parse error is none. -/
def json_loads (cps : List Nat) : Option JValue :=
  match parseCore (cps.length + 1) PMode.val (skipWs cps) with
  | some (v, rest) => if skipWs rest = [] then some v else none
  | none => none

/-- The framing pipeline applied to raw buffered bytes:
buffer.decode("utf-8") followed by json.loads.  none covers both a
UnicodeDecodeError and a JSONDecodeError (the two are distinguished again
by feedFramer, as the source distinguishes them by exception handler). -/
def jsonOfBytes (bs : List Nat) : Option JValue :=
  (utf8Decode bs).bind json_loads

/-- A response envelope built by the dispatcher: either
a dict with status "success" and a result, or a dict with status "error"
and a message string. -/
inductive Resp where
  | success (result : JValue) : Resp
  | error (message : List Nat) : Resp

/-- Opaque handler capability surface.  run gives, for a handler name and a
params mapping, either the returned value or the text of a raised
exception.  acquireContext models the context preparation for
create_object, modify_object and delete_object in execute_command
(bpy.context.copy, the VIEW_3D area lookup and temp_override): ok when
that code succeeds, error with an exception text when it raises (for
example, no VIEW_3D area present). -/
structure HandlerEnv where
  run : List Nat → JValue → Except (List Nat) JValue
  acquireContext : Except (List Nat) Unit

/-- Side effects and log lines of the server, recorded in order. -/
inductive Ev where
  | logExecutingHandler (cmdType : Option JValue) : Ev
  | logHandlerComplete : Ev
  | logErrorInHandler (msg : List Nat) : Ev
  | traceback : Ev
  | logErrorExecutingCommand (msg : List Nat) : Ev
  | unregisterTimer : Ev
  | closeListenSocket : Ev
  | closeClientSocket : Ev
  | logServerStopped : Ev
  | logServerStarted : Ev
  | logFailedToStart (msg : List Nat) : Ev
  | bindAttempt : Ev
  | registerTimer : Ev
  | logConnected (addr : Nat) : Ev
  | logClientDisconnected : Ev
  | logErrorReceiving (msg : List Nat) : Ev
  | logErrorAccepting : Ev
  | sendResp (r : Resp) : Ev

/-- Names of the base handler dict that is always available
(source lines 830-840). -/
def baseNames : List (List Nat) :=
  [lit "get_scene_info", lit "create_object", lit "modify_object",
   lit "delete_object", lit "get_object_info", lit "execute_code",
   lit "set_material", lit "get_polyhaven_status",
   lit "import_trellis_glb_model"]

/-- Names of the PolyHaven handler dict merged in only when the scene flag
blendermcp_use_polyhaven is set (source lines 842-850). -/
def polyNames : List (List Nat) :=
  [lit "get_polyhaven_categories", lit "search_polyhaven_assets",
   lit "download_polyhaven_asset", lit "set_texture"]

/-- Command types that execute_command runs inside a VIEW_3D context
override (source line 804). -/
def contextTypes : List (List Nat) :=
  [lit "create_object", lit "modify_object", lit "delete_object"]

/-- Keys present in the handlers dict at the moment of a dispatch with the
given PolyHaven flag value: the base dict updated with the PolyHaven dict
when the flag is set.  The two name sets are disjoint, so update order is
unobservable and plain concatenation is faithful. -/
def registryNames (flag : Bool) : List (List Nat) :=
  baseNames ++ (if flag then polyNames else [])

/-- Python str() of the cmd_type value as interpolated into the message
"Unknown command type: ...".  A missing key is the value None, printing as
"None".  Claims exercise only the missing-key and string cases; the
renderings of the remaining cases approximate str() and are unreachable
from the claims (list and dict values raise on dict lookup before the
message is built). -/
def pyStr : Option JValue → List Nat
  | none => lit "None"
  | some JValue.jnull => lit "None"
  | some JValue.jtrue => lit "True"
  | some JValue.jfalse => lit "False"
  | some (JValue.jnum lx) => lx
  | some (JValue.jstr s) => s
  | some (JValue.jarr _) => lit "<list>"
  | some (JValue.jobj _) => lit "<dict>"

/-- Python type name of a decoded JSON value, for exception texts such as
"'list' object has no attribute 'get'".  The int/float split for numbers
is approximated from the lexeme. -/
def pyTypeName : JValue → List Nat
  | JValue.jnull => lit "NoneType"
  | JValue.jtrue => lit "bool"
  | JValue.jfalse => lit "bool"
  | JValue.jnum lx => if 46 ∈ lx ∨ 101 ∈ lx ∨ 69 ∈ lx ∨ 78 ∈ lx ∨ 73 ∈ lx
      then lit "float" else lit "int"
  | JValue.jstr _ => lit "str"
  | JValue.jarr _ => lit "list"
  | JValue.jobj _ => lit "dict"

/-- Exception text of the AttributeError raised by command.get on a decoded
value that is not a mapping. -/
def noGetAttrMsg (v : JValue) : List Nat :=
  lit "\x27" ++ pyTypeName v ++ lit "\x27 object has no attribute \x27get\x27"

/-- Python equality of a cmd_type value with a str literal: true exactly
when the value is that string (equality with None or a non-str value is
False in Python). -/
def isTypeStr (ct : Option JValue) (s : List Nat) : Bool :=
  match ct with
  | some (JValue.jstr u) => u = s
  | _ => false

/-- Python membership of a cmd_type value in a list of str literals. -/
def typeInList (ct : Option JValue) (names : List (List Nat)) : Bool :=
  match ct with
  | some (JValue.jstr u) => u ∈ names
  | _ => false

/-- Model of BlenderMCPServer._execute_command_internal (source lines
820-864).  The Except error branch carries an exception escaping the
method: the unprotected get_polyhaven_status call of the early status
branch, a TypeError from dict lookup with an unhashable key, or the
AttributeError on a non-mapping command.  All other paths return ok with
the response envelope; the handler invocation itself is wrapped in
try/except and never escapes.  The event list records the prints. -/
def execute_command_internal (env : HandlerEnv) (flag : Bool) (cmd : JValue) :
    Except (List Nat) Resp × List Ev :=
  match cmd with
  | JValue.jobj fs =>
    let cmdType := pyGet fs (lit "type")
    let params := (pyGet fs (lit "params")).getD (JValue.jobj [])
    if isTypeStr cmdType (lit "get_polyhaven_status") then
      match env.run (lit "get_polyhaven_status") (JValue.jobj []) with
      | Except.ok r => (Except.ok (Resp.success r), [])
      | Except.error e => (Except.error e, [])
    else
      match cmdType with
      | some (JValue.jarr _) => (Except.error (lit "unhashable type: \x27list\x27"), [])
      | some (JValue.jobj _) => (Except.error (lit "unhashable type: \x27dict\x27"), [])
      | some (JValue.jstr t) =>
        if t ∈ registryNames flag then
          match env.run t params with
          | Except.ok r =>
            (Except.ok (Resp.success r),
             [Ev.logExecutingHandler cmdType, Ev.logHandlerComplete])
          | Except.error e =>
            (Except.ok (Resp.error e),
             [Ev.logExecutingHandler cmdType, Ev.logErrorInHandler e, Ev.traceback])
        else
          (Except.ok (Resp.error (lit "Unknown command type: " ++ pyStr cmdType)), [])
      | _ =>
        (Except.ok (Resp.error (lit "Unknown command type: " ++ pyStr cmdType)), [])
  | v => (Except.error (noGetAttrMsg v), [])

/-- Model of BlenderMCPServer.execute_command (source lines 797-818): the
three context-sensitive command types first acquire the VIEW_3D context
override, then delegate to execute_command_internal; every exception is
caught, printed with its trace, and converted into an error envelope. -/
def execute_command (env : HandlerEnv) (flag : Bool) (cmd : JValue) :
    Resp × List Ev :=
  let inner :=
    match cmd with
    | JValue.jobj fs =>
      if typeInList (pyGet fs (lit "type")) contextTypes then
        match env.acquireContext with
        | Except.ok _ => execute_command_internal env flag cmd
        | Except.error e => (Except.error e, [])
      else execute_command_internal env flag cmd
    | v => (Except.error (noGetAttrMsg v), [])
  match inner with
  | (Except.ok r, logs) => (r, logs)
  | (Except.error e, logs) =>
    (Resp.error e, logs ++ [Ev.logErrorExecutingCommand e, Ev.traceback])

/-- The command envelope a client sends for a given type string and params
value. -/
def mkCmd (t : List Nat) (ps : JValue) : JValue :=
  JValue.jobj [(lit "type", JValue.jstr t), (lit "params", ps)]

/-- Params value the dispatcher passes to a resolved handler: the params
field of the envelope, defaulting to an empty mapping. -/
def paramsOf (cmd : JValue) : JValue :=
  match cmd with
  | JValue.jobj fs => (pyGet fs (lit "params")).getD (JValue.jobj [])
  | _ => JValue.jobj []

/-- The handler name and argument value that dispatch resolves for an
envelope, following the source order: the get_polyhaven_status early
branch first (invoked with no arguments), then the merged handler dict
keyed by the type string.  none when no handler matches. -/
def resolvedCall (flag : Bool) (cmd : JValue) : Option (List Nat × JValue) :=
  match cmd with
  | JValue.jobj fs =>
    if isTypeStr (pyGet fs (lit "type")) (lit "get_polyhaven_status") then
      some (lit "get_polyhaven_status", JValue.jobj [])
    else
      match pyGet fs (lit "type") with
      | some (JValue.jstr t) =>
        if t ∈ registryNames flag then some (t, paramsOf cmd) else none
      | _ => none
  | _ => none

/-- Result of the early status-query branch (source lines 826-827), which
wraps the unprotected get_polyhaven_status call. -/
def statusQueryResult (env : HandlerEnv) : Except (List Nat) Resp × List Ev :=
  match env.run (lit "get_polyhaven_status") (JValue.jobj []) with
  | Except.ok r => (Except.ok (Resp.success r), [])
  | Except.error e => (Except.error e, [])

/-- Server state: the fields of BlenderMCPServer that the lifecycle and the
timer callback read and write.  sock is whether self.socket is not None,
client is the identity of the peer held in self.client (none when no
client), buffer is self.buffer, timerRegistered is whether
_process_server is registered with bpy.app.timers. -/
structure ServerState where
  running : Bool
  sock : Bool
  client : Option Nat
  buffer : List Nat
  timerRegistered : Bool

/-- What self.client.recv(8192) yields this tick: would-block, some bytes
(the empty list models the b"" of an orderly client shutdown), or a raised
exception with its text. -/
inductive RecvEvent where
  | wouldBlock : RecvEvent
  | data (bs : List Nat) : RecvEvent
  | recvError (msg : List Nat) : RecvEvent

/-- Inputs the operating system supplies to one timer tick: the identity of
a pending connection if one is waiting in the accept backlog, whether the
accept call raises (other than BlockingIOError), and the recv outcome for
the active client (ignored when there is no client to read from). -/
structure TickInput where
  pending : Option Nat
  acceptFails : Bool
  recv : RecvEvent

/-- Outcome of one framing step (source lines 757-770): the new buffer, the
decoded envelope if the whole buffer parsed, and whether the connection
was torn down (client disconnect on empty data, or UnicodeDecodeError
reaching the generic receive-error handler of lines 779-783). -/
structure FrameResult where
  buffer : List Nat
  emitted : Option JValue
  closed : Bool

/-- One framing step: append the read bytes to the buffer, decode the whole
buffer as UTF-8 and parse it as one JSON value.  A JSONDecodeError keeps
the grown buffer (incomplete message); success clears the whole buffer
and emits the value; empty data is a client disconnect; a failed UTF-8
decode raises UnicodeDecodeError, which the JSONDecodeError handler does
not catch, so the connection is closed and the buffer dropped. -/
def feedFramer (buf data : List Nat) : FrameResult :=
  if data = [] then { buffer := [], emitted := none, closed := true }
  else
    let buf2 := buf ++ data
    match utf8Decode buf2 with
    | none => { buffer := [], emitted := none, closed := true }
    | some cps =>
      match json_loads cps with
      | some v => { buffer := [], emitted := some v, closed := false }
      | none => { buffer := buf2, emitted := none, closed := false }

/-- Result of one _process_server invocation: the new state, the responses
written with sendall (in order), whether the timer re-arms (the 0.1
return) or stops (the None return), and the recorded events. -/
structure TickResult where
  state : ServerState
  sent : List Resp
  ret : Bool
  events : List Ev

/-- Model of BlenderMCPServer._process_server (source lines 734-795).  When
not running it returns None (timer unregisters).  Otherwise it first
attempts one non-blocking accept, only if no client is held; then, if a
client is held, attempts one non-blocking recv and runs one framing step;
a decoded envelope is dispatched through execute_command and exactly one
response envelope is serialized and sent back.  sendall and json.dumps
are modelled as succeeding (their failure would close the connection
after dispatch; no claim depends on it). -/
def tick (env : HandlerEnv) (flag : Bool) (s : ServerState) (inp : TickInput) :
    TickResult :=
  if s.running = false then
    { state := s, sent := [], ret := false, events := [] }
  else
    let acc : ServerState × List Ev :=
      if s.client = none ∧ s.sock then
        if inp.acceptFails then (s, [Ev.logErrorAccepting])
        else
          match inp.pending with
          | some p => ({ s with client := some p }, [Ev.logConnected p])
          | none => (s, [])
      else (s, [])
    let s1 := acc.1
    let ev1 := acc.2
    match s1.client with
    | none => { state := s1, sent := [], ret := true, events := ev1 }
    | some _ =>
      match inp.recv with
      | RecvEvent.wouldBlock =>
        { state := s1, sent := [], ret := true, events := ev1 }
      | RecvEvent.recvError m =>
        { state := { s1 with client := none, buffer := [] }, sent := [],
          ret := true, events := ev1 ++ [Ev.logErrorReceiving m] }
      | RecvEvent.data bs =>
        if bs = [] then
          { state := { s1 with client := none, buffer := [] }, sent := [],
            ret := true, events := ev1 ++ [Ev.logClientDisconnected] }
        else
          let fr := feedFramer s1.buffer bs
          if fr.closed then
            { state := { s1 with client := none, buffer := [] }, sent := [],
              ret := true,
              events := ev1 ++ [Ev.logErrorReceiving (lit "UnicodeDecodeError")] }
          else
            match fr.emitted with
            | some cmd =>
              let d := execute_command env flag cmd
              { state := { s1 with buffer := [] }, sent := [d.1], ret := true,
                events := ev1 ++ d.2 ++ [Ev.sendResp d.1] }
            | none =>
              { state := { s1 with buffer := fr.buffer }, sent := [],
                ret := true, events := ev1 }

/-- Model of BlenderMCPServer.stop (source lines 721-732): set running to
False, unregister the timer if registered, close the listen socket and
the client socket if present, and null both out.  The receive buffer is
not touched.  The trailing print is always emitted. -/
def stop (s : ServerState) : ServerState × List Ev :=
  ({ s with running := false, timerRegistered := false, sock := false,
            client := none },
   (if s.timerRegistered then [Ev.unregisterTimer] else [])
     ++ (if s.sock then [Ev.closeListenSocket] else [])
     ++ (if s.client.isSome then [Ev.closeClientSocket] else [])
     ++ [Ev.logServerStopped])

/-- Model of BlenderMCPServer.start (source lines 705-719): set running to
True, create the listen socket, then try to bind and listen; on success
register the timer callback; on any exception print the failure and call
stop.  bindResult stands for the outcome of the bind/listen calls. -/
def start (s : ServerState) (bindResult : Except (List Nat) Unit) :
    ServerState × List Ev :=
  let s1 : ServerState := { s with running := true, sock := true }
  match bindResult with
  | Except.ok _ =>
    ({ s1 with timerRegistered := true },
     [Ev.bindAttempt, Ev.registerTimer, Ev.logServerStarted])
  | Except.error m =>
    let r := stop s1
    (r.1, [Ev.bindAttempt, Ev.logFailedToStart m] ++ r.2)

/-- Fold of the framing step over a sequence of reads on one connection,
starting from a given buffer: the final buffer, the envelopes decoded in
order, and whether the connection was torn down (processing stops there,
since a closed connection receives no further reads). -/
def runChunks : List Nat → List (List Nat) → List Nat × List JValue × Bool
  | buf, [] => (buf, [], false)
  | buf, c :: cs =>
    let fr := feedFramer buf c
    if fr.closed then ([], [], true)
    else
      let r := runChunks fr.buffer cs
      (r.1, fr.emitted.toList ++ r.2.1, r.2.2)

/-- The cmd_type value command.get("type") reads on a mapping envelope. -/
def cmdTypeOf (cmd : JValue) : Option JValue :=
  match cmd with
  | JValue.jobj fs => pyGet fs (lit "type")
  | _ => none

/-- A handler environment whose handlers all return null and whose context
acquisition succeeds; used to instantiate witnesses. -/
def trivEnv : HandlerEnv :=
  { run := fun _ _ => Except.ok JValue.jnull, acquireContext := Except.ok () }

/-- A handler environment in which every handler raises with the text
"boom" while context acquisition succeeds. -/
def raisingEnv : HandlerEnv :=
  { run := fun _ _ => Except.error (lit "boom"),
    acquireContext := Except.ok () }

/-- Bool test used to count bind attempts among the recorded events. -/
def isBindAttempt : Ev → Bool
  | Ev.bindAttempt => true
  | _ => false

/-- A well-formed two-byte-UTF-8 message chunked so that the read boundary
splits the two bytes of the non-ASCII character. -/
def utf8SplitChunks : List (List Nat) :=
  [lit "\x7b\"type\": \"" ++ [195], [169] ++ lit "\"\x7d"]

/-- A single read holding one complete message followed by one additional
byte (a space). -/
def trailingWsRead : List Nat := lit "\x7b\"type\": \"ping\"\x7d "

/-- Helper: jsonOfBytes of the empty byte list is none. -/
theorem jsonOfBytes_nil : jsonOfBytes [] = none := rfl

/-- Helper: chunked-delivery invariant of the framing fold.  If the
remaining chunks of a message m are delivered onto a buffer holding a
proper leading part of m, every cumulative leading part of m decodes as
UTF-8, m itself parses to v, and no proper leading part of m parses, then
the fold emits exactly v, ends with an empty buffer and never tears the
connection down. -/
theorem runChunks_step (m : List Nat) (v : JValue)
    (hok : jsonOfBytes m = some v)
    (hdec : ∀ k, k ≤ m.length → (utf8Decode (m.take k)).isSome = true)
    (hpre : ∀ k, k < m.length → (jsonOfBytes (m.take k)).isNone = true) :
    ∀ cs p, (∀ c ∈ cs, c ≠ []) → p ++ cs.flatten = m → p.length < m.length →
      runChunks p cs = ([], [v], false) := by
  intro cs
  induction cs with
  | nil =>
    intro p _ hjoin hlt
    rw [List.flatten_nil, List.append_nil] at hjoin
    rw [hjoin] at hlt
    exact absurd hlt (lt_irrefl _)
  | cons c cs ih =>
    intro p hne hjoin hlt
    have hc : c ≠ [] := hne c (List.mem_cons_self c cs)
    rw [List.flatten_cons, ← List.append_assoc] at hjoin
    have htake : m.take (p ++ c).length = p ++ c := by
      rw [← hjoin]; exact List.take_left (p ++ c) cs.flatten
    have hle : (p ++ c).length ≤ m.length := by
      rw [← hjoin]
      simp only [List.length_append]
      omega
    rcases Nat.lt_or_ge (p ++ c).length m.length with hcase | hcase
    · have hdk := hdec (p ++ c).length hle
      rw [htake] at hdk
      obtain ⟨cps, hcps⟩ := Option.isSome_iff_exists.mp hdk
      have hpk := hpre (p ++ c).length hcase
      rw [htake] at hpk
      have hjl : json_loads cps = none := by
        have h2 : jsonOfBytes (p ++ c) = none := Option.isNone_iff_eq_none.mp hpk
        simp only [jsonOfBytes, hcps, Option.some_bind] at h2
        exact h2
      have hfr : feedFramer p c =
          { buffer := p ++ c, emitted := none, closed := false } := by
        simp only [feedFramer, if_neg hc, hcps, hjl]
      have hih := ih (p ++ c) (fun x hx => hne x (List.mem_cons_of_mem c hx)) hjoin hcase
      simp [runChunks, hfr, hih]
    · have heq : (p ++ c).length = m.length := Nat.le_antisymm hle hcase
      have hpc : p ++ c = m := by
        rw [← htake, heq, List.take_length]
      have hfl : cs.flatten = [] := by
        rw [hpc] at hjoin
        have hlen := congrArg List.length hjoin
        rw [List.length_append] at hlen
        have h0 : cs.flatten.length = 0 := by omega
        exact List.eq_nil_of_length_eq_zero h0
      have hcs : cs = [] := by
        cases cs with
        | nil => rfl
        | cons c2 cs2 =>
          have h2 : c2 = [] :=
            List.flatten_eq_nil_iff.mp hfl c2 (List.mem_cons_self c2 cs2)
          exact absurd h2 (hne c2 (List.mem_cons_of_mem c (List.mem_cons_self c2 cs2)))
      obtain ⟨cps, hcps, hjl⟩ : ∃ cps, utf8Decode m = some cps ∧ json_loads cps = some v := by
        rcases hu : utf8Decode m with _ | cps
        · simp [jsonOfBytes, hu] at hok
        · exact ⟨cps, rfl, by simpa [jsonOfBytes, hu] using hok⟩
      have hfr : feedFramer p c = { buffer := [], emitted := some v, closed := false } := by
        simp only [feedFramer, if_neg hc, hpc, hcps, hjl]
      subst hcs
      simp [runChunks, hfr]

/-- Claim C1 (amended): for a well-formed message delivered across
arbitrarily many non-empty reads with no concatenation of messages,
provided every cumulative leading part of the delivered bytes decodes as
UTF-8 (true in particular of every ASCII message under every chunking)
and no proper leading part already parses as a complete JSON value (true
of a JSON object text without trailing whitespace), the framer treats
every failed parse of the whole buffer as keep-buffering, never tears the
connection down, and recovers exactly one command envelope, the decoded
message value, with nothing left in the buffer: no duplication, no
loss. -/
theorem framer_chunked_delivery (cs : List (List Nat)) (v : JValue)
    (hne : ∀ c ∈ cs, c ≠ [])
    (hdec : ∀ k, k ≤ cs.flatten.length → (utf8Decode (cs.flatten.take k)).isSome = true)
    (hok : jsonOfBytes cs.flatten = some v)
    (hpre : ∀ k, k < cs.flatten.length → (jsonOfBytes (cs.flatten.take k)).isNone = true) :
    runChunks [] cs = ([], [v], false) := by
  have hm : cs.flatten ≠ [] := by
    intro h
    rw [h, jsonOfBytes_nil] at hok
    exact Option.noConfusion hok
  have hpos : 0 < cs.flatten.length := List.length_pos.mpr hm
  exact runChunks_step cs.flatten v hok hdec hpre cs []
    hne (List.nil_append _) hpos

/-- Witness for C1: the message with bytes of the text
(lbrace)"type":"a"(rbrace) delivered in three reads produces exactly the
one envelope with type "a". -/
theorem framer_chunked_delivery_witness :
    runChunks [] [lit "\x7b\"ty", lit "pe\":\"a\"", lit "\x7d"] =
      ([], [JValue.jobj [(lit "type", JValue.jstr (lit "a"))]], false) :=
  framer_chunked_delivery _ _ (by decide) (by decide) rfl (by decide)

/-- Counterexample to C1 as stated: the cumulative bytes of the two chunks
form one valid message (a mapping with a type key holding the character
U+00E9), and both chunks are non-empty reads of a single message, yet the
framer emits no envelope at all and tears the connection down: the first
read leaves a truncated UTF-8 sequence in the buffer, buffer.decode
raises UnicodeDecodeError, which the except json.JSONDecodeError handler
of the source does not catch, so the generic receive-error handler closes
the client and clears the buffer — the message is lost and the failed
parse was treated as an error. -/
theorem framer_utf8_split_counterexample :
    (∀ c ∈ utf8SplitChunks, c ≠ []) ∧
    (jsonOfBytes utf8SplitChunks.flatten).isSome = true ∧
    runChunks [] utf8SplitChunks = ([], [], true) :=
  ⟨by decide, by decide, rfl⟩

/-- Claim C5 (amended): on successful parse the framer clears the entire
buffer and emits the decoded value, but a successful parse only happens
when the whole buffer is a single JSON message: when one read carries a
complete message plus the bytes of a further message, the parse of the
whole buffer fails, nothing is dispatched, and all bytes — the completed
message and the additional bytes — stay in the buffer; they are not
split off into a fresh buffer.  Delivered as two separate reads, the same
two messages each produce exactly one envelope. -/
theorem parse_success_clears_whole_buffer (m1 m2 : List Nat) (v1 v2 : JValue)
    (h1 : jsonOfBytes m1 = some v1) (h2 : jsonOfBytes m2 = some v2)
    (h12 : (jsonOfBytes (m1 ++ m2)).isNone = true)
    (hdec : (utf8Decode (m1 ++ m2)).isSome = true) :
    runChunks [] [m1 ++ m2] = (m1 ++ m2, [], false) ∧
    runChunks [] [m1, m2] = ([], [v1, v2], false) := by
  have hm1 : m1 ≠ [] := by
    intro h; rw [h, jsonOfBytes_nil] at h1; exact Option.noConfusion h1
  have hm2 : m2 ≠ [] := by
    intro h; rw [h, jsonOfBytes_nil] at h2; exact Option.noConfusion h2
  have hm12 : m1 ++ m2 ≠ [] := by
    intro h; exact hm1 (List.append_eq_nil.mp h).1
  obtain ⟨cps, hcps⟩ := Option.isSome_iff_exists.mp hdec
  have hjl : json_loads cps = none := by
    have h3 := Option.isNone_iff_eq_none.mp h12
    simp only [jsonOfBytes, hcps, Option.some_bind] at h3
    exact h3
  obtain ⟨c1, hc1, hl1⟩ : ∃ c1, utf8Decode m1 = some c1 ∧ json_loads c1 = some v1 := by
    rcases hu : utf8Decode m1 with _ | c1
    · simp [jsonOfBytes, hu] at h1
    · exact ⟨c1, rfl, by simpa [jsonOfBytes, hu] using h1⟩
  obtain ⟨c2, hc2, hl2⟩ : ∃ c2, utf8Decode m2 = some c2 ∧ json_loads c2 = some v2 := by
    rcases hu : utf8Decode m2 with _ | c2
    · simp [jsonOfBytes, hu] at h2
    · exact ⟨c2, rfl, by simpa [jsonOfBytes, hu] using h2⟩
  constructor
  · have hfr : feedFramer [] (m1 ++ m2) =
        { buffer := m1 ++ m2, emitted := none, closed := false } := by
      simp only [feedFramer, if_neg hm12, List.nil_append, hcps, hjl]
    simp [runChunks, hfr]
  · have hfr1 : feedFramer [] m1 =
        { buffer := [], emitted := some v1, closed := false } := by
      simp only [feedFramer, if_neg hm1, List.nil_append, hc1, hl1]
    have hfr2 : feedFramer [] m2 =
        { buffer := [], emitted := some v2, closed := false } := by
      simp only [feedFramer, if_neg hm2, List.nil_append, hc2, hl2]
    simp [runChunks, hfr1, hfr2]

/-- Witness for C5 (amended): two concrete messages concatenated in one
read stall with everything buffered; delivered as two reads they produce
the two envelopes. -/
theorem parse_success_clears_whole_buffer_witness :
    runChunks [] [lit "\x7b\"type\":\"a\"\x7d" ++ lit "\x7b\"type\":\"b\"\x7d"] =
        (lit "\x7b\"type\":\"a\"\x7d" ++ lit "\x7b\"type\":\"b\"\x7d", [], false) ∧
    runChunks [] [lit "\x7b\"type\":\"a\"\x7d", lit "\x7b\"type\":\"b\"\x7d"] =
        ([], [JValue.jobj [(lit "type", JValue.jstr (lit "a"))],
              JValue.jobj [(lit "type", JValue.jstr (lit "b"))]], false) :=
  parse_success_clears_whole_buffer _ _ _ _ rfl rfl (by decide) (by decide)

/-- Counterexample to C5 as stated: this read completes a message (its
first 16 bytes parse as a valid envelope) and carries one additional byte
(0x20) beyond that message; the parse of the whole buffer succeeds
(json.loads accepts trailing whitespace), the decoded value is handed
over — and the additional byte is discarded with the rest of the buffer
(the new buffer is empty), not kept as the start of a fresh buffer for
the next message as the claim requires. -/
theorem trailing_bytes_discarded_counterexample :
    trailingWsRead = lit "\x7b\"type\": \"ping\"\x7d" ++ [32] ∧
    (jsonOfBytes (lit "\x7b\"type\": \"ping\"\x7d")).isSome = true ∧
    feedFramer [] trailingWsRead =
      { buffer := [],
        emitted := some (JValue.jobj [(lit "type", JValue.jstr (lit "ping"))]),
        closed := false } :=
  ⟨by decide, by decide, rfl⟩

/-- Helper: when the server is running with an active client and the bytes
of this read complete a message, the tick runs one dispatch and sends
exactly the one response envelope, keeps the client, clears the buffer
and re-arms the timer. -/
theorem tick_decode_core (env : HandlerEnv) (flag : Bool) (s : ServerState)
    (inp : TickInput) (c : Nat) (bs : List Nat) (cmd : JValue)
    (hrun : s.running = true) (hcl : s.client = some c)
    (hrecv : inp.recv = RecvEvent.data bs) (hbs : bs ≠ [])
    (hok : jsonOfBytes (s.buffer ++ bs) = some cmd) :
    tick env flag s inp =
      { state := { s with buffer := [] },
        sent := [(execute_command env flag cmd).1], ret := true,
        events := (execute_command env flag cmd).2 ++
          [Ev.sendResp (execute_command env flag cmd).1] } := by
  obtain ⟨cps, hcps, hjl⟩ :
      ∃ cps, utf8Decode (s.buffer ++ bs) = some cps ∧ json_loads cps = some cmd := by
    rcases hu : utf8Decode (s.buffer ++ bs) with _ | cps
    · simp [jsonOfBytes, hu] at hok
    · exact ⟨cps, rfl, by simpa [jsonOfBytes, hu] using hok⟩
  have hfr : feedFramer s.buffer bs =
      { buffer := [], emitted := some cmd, closed := false } := by
    simp only [feedFramer, if_neg hbs, hcps, hjl]
  simp [tick, hrun, hcl, hrecv, hfr, hbs]

/-- Claim C2: for every command envelope successfully decoded from the
wire, the tick produces exactly one response envelope — the output of
execute_command, which also catches handler exceptions — and sends it
back; the decoded command is never silently dropped, the client stays
connected, the server keeps running and the timer re-arms. -/
theorem tick_sends_one_response_per_decode (env : HandlerEnv) (flag : Bool)
    (s : ServerState) (inp : TickInput) (c : Nat) (bs : List Nat) (cmd : JValue)
    (hrun : s.running = true) (hcl : s.client = some c)
    (hrecv : inp.recv = RecvEvent.data bs) (hbs : bs ≠ [])
    (hok : jsonOfBytes (s.buffer ++ bs) = some cmd) :
    (tick env flag s inp).sent = [(execute_command env flag cmd).1] ∧
    (tick env flag s inp).state.client = some c ∧
    (tick env flag s inp).state.running = true ∧
    (tick env flag s inp).state.buffer = [] ∧
    (tick env flag s inp).ret = true := by
  rw [tick_decode_core env flag s inp c bs cmd hrun hcl hrecv hbs hok]
  exact ⟨rfl, hcl, hrun, rfl, rfl⟩

/-- Witness for C2 at a concrete state, input and environment. -/
theorem tick_sends_one_response_per_decode_witness :
    (tick trivEnv true ⟨true, true, some 0, [], true⟩
      ⟨none, false, RecvEvent.data (lit "\x7b\"type\":\"x\"\x7d")⟩).sent =
    [(execute_command trivEnv true
        (JValue.jobj [(lit "type", JValue.jstr (lit "x"))])).1] :=
  (tick_sends_one_response_per_decode trivEnv true
    ⟨true, true, some 0, [], true⟩
    ⟨none, false, RecvEvent.data (lit "\x7b\"type\":\"x\"\x7d")⟩ 0
    (lit "\x7b\"type\":\"x\"\x7d")
    (JValue.jobj [(lit "type", JValue.jstr (lit "x"))])
    rfl rfl rfl (by decide) rfl).1

/-- Claim C3: for every command envelope whose type string matches no
registered handler under the PolyHaven flag in force at dispatch time —
not the always-available status query, not a base handler, not an enabled
conditional handler — dispatch returns the envelope with status error and
message "Unknown command type: " followed by the type, with no logging,
and _execute_command_internal takes no exception path (the ok branch, so
dispatch never raises). -/
theorem unknown_command_type_error (env : HandlerEnv) (flag : Bool)
    (fs : List (List Nat × JValue)) (t : List Nat)
    (hty : pyGet fs (lit "type") = some (JValue.jstr t))
    (hmem : t ∉ registryNames flag) :
    execute_command env flag (JValue.jobj fs) =
      (Resp.error (lit "Unknown command type: " ++ t), []) ∧
    (execute_command_internal env flag (JValue.jobj fs)).1 =
      Except.ok (Resp.error (lit "Unknown command type: " ++ t)) := by
  have hsub : ∀ x ∈ contextTypes, x ∈ baseNames := by decide
  have hgps : ¬(t = lit "get_polyhaven_status") := by
    intro h
    subst h
    exact hmem (List.mem_append_left _ (by decide))
  have hctx : ¬(t ∈ contextTypes) := fun h =>
    hmem (List.mem_append_left _ (hsub t h))
  have hinternal : execute_command_internal env flag (JValue.jobj fs) =
      (Except.ok (Resp.error (lit "Unknown command type: " ++ t)), []) := by
    simp [execute_command_internal, hty, isTypeStr, hgps, hmem, pyStr]
  refine ⟨?_, by rw [hinternal]⟩
  simp [execute_command, hty, typeInList, hctx, hinternal]

/-- Witness for C3: the type "nonexistent_cmd" is not registered even with
the PolyHaven flag enabled and dispatches to the structured unknown-type
error. -/
theorem unknown_command_type_error_witness :
    execute_command trivEnv true
        (JValue.jobj [(lit "type", JValue.jstr (lit "nonexistent_cmd"))]) =
      (Resp.error (lit "Unknown command type: " ++ lit "nonexistent_cmd"), []) :=
  (unknown_command_type_error trivEnv true
    [(lit "type", JValue.jstr (lit "nonexistent_cmd"))] (lit "nonexistent_cmd")
    rfl (by decide)).1

/-- Claim C10: dispatching a well-formed mapping without a type key does
not crash the dispatcher: command.get returns None, no handler matches,
and the dispatcher returns the structured envelope with message
"Unknown command type: None" through the non-raising path, while a tick
that decodes such a mapping keeps the connection open and sends exactly
that error envelope. -/
theorem missing_type_dispatches_unknown_none (env : HandlerEnv) (flag : Bool)
    (fs : List (List Nat × JValue))
    (hty : pyGet fs (lit "type") = none) :
    execute_command env flag (JValue.jobj fs) =
      (Resp.error (lit "Unknown command type: None"), []) ∧
    (execute_command_internal env flag (JValue.jobj fs)).1 =
      Except.ok (Resp.error (lit "Unknown command type: None")) ∧
    (∀ (s : ServerState) (inp : TickInput) (c : Nat) (bs : List Nat),
      s.running = true → s.client = some c → inp.recv = RecvEvent.data bs →
      bs ≠ [] → jsonOfBytes (s.buffer ++ bs) = some (JValue.jobj fs) →
      (tick env flag s inp).state.client = some c ∧
      (tick env flag s inp).sent =
        [Resp.error (lit "Unknown command type: None")]) := by
  have hmsg : lit "Unknown command type: " ++ pyStr none =
      lit "Unknown command type: None" := by decide
  have hinternal : execute_command_internal env flag (JValue.jobj fs) =
      (Except.ok (Resp.error (lit "Unknown command type: None")), []) := by
    simp [execute_command_internal, hty, isTypeStr, hmsg]
  have hec : execute_command env flag (JValue.jobj fs) =
      (Resp.error (lit "Unknown command type: None"), []) := by
    simp [execute_command, hty, typeInList, hinternal]
  refine ⟨hec, by rw [hinternal], ?_⟩
  intro s inp c bs h1 h2 h3 h4 h5
  rw [tick_decode_core env flag s inp c bs _ h1 h2 h3 h4 h5]
  exact ⟨h2, by rw [hec]⟩

/-- Witness for C10: the empty mapping decoded from the two bytes of the
empty-object text dispatches to the unknown-None error envelope and the
connection stays open. -/
theorem missing_type_dispatches_unknown_none_witness :
    execute_command trivEnv true (JValue.jobj []) =
      (Resp.error (lit "Unknown command type: None"), []) ∧
    (tick trivEnv true ⟨true, true, some 0, [], true⟩
        ⟨none, false, RecvEvent.data (lit "\x7b\x7d")⟩).state.client = some 0 :=
  ⟨(missing_type_dispatches_unknown_none trivEnv true [] rfl).1,
   ((missing_type_dispatches_unknown_none trivEnv true [] rfl).2.2
      ⟨true, true, some 0, [], true⟩
      ⟨none, false, RecvEvent.data (lit "\x7b\x7d")⟩ 0 (lit "\x7b\x7d")
      rfl rfl rfl (by decide) rfl).1⟩

/-- Helper: a true Python string comparison pins the compared value. -/
theorem isTypeStr_eq (ct : Option JValue) (s : List Nat)
    (h : isTypeStr ct s = true) : ct = some (JValue.jstr s) := by
  cases ct with
  | none => simp [isTypeStr] at h
  | some v => cases v <;> simp_all [isTypeStr]

/-- Helper: when dispatch resolves a handler and that handler raises (and
the context acquisition of the three context-sensitive command types
succeeds where it is needed), execute_command returns the error envelope
carrying the exception text and its event list contains the printed
traceback. -/
theorem exec_error_of_resolved (env : HandlerEnv) (flag : Bool)
    (cmd : JValue) (name : List Nat) (arg : JValue) (msg : List Nat)
    (hres : resolvedCall flag cmd = some (name, arg))
    (hrun : env.run name arg = Except.error msg)
    (hctx : typeInList (cmdTypeOf cmd) contextTypes = true →
      env.acquireContext = Except.ok ()) :
    (execute_command env flag cmd).1 = Resp.error msg ∧
    Ev.traceback ∈ (execute_command env flag cmd).2 := by
  cases cmd with
  | jnull => simp [resolvedCall] at hres
  | jtrue => simp [resolvedCall] at hres
  | jfalse => simp [resolvedCall] at hres
  | jnum lx => simp [resolvedCall] at hres
  | jstr u => simp [resolvedCall] at hres
  | jarr xs => simp [resolvedCall] at hres
  | jobj fs =>
    by_cases hgps :
        isTypeStr (pyGet fs (lit "type")) (lit "get_polyhaven_status") = true
    · have hty := isTypeStr_eq _ _ hgps
      have hres2 : lit "get_polyhaven_status" = name ∧ JValue.jobj [] = arg := by
        simpa [resolvedCall, hgps] using hres
      obtain ⟨hname, harg⟩ := hres2
      subst hname
      subst harg
      have hti : typeInList (pyGet fs (lit "type")) contextTypes = false := by
        rw [hty]; simp [typeInList]; decide
      have hint : execute_command_internal env flag (JValue.jobj fs) =
          (Except.error msg, []) := by
        simp [execute_command_internal, hty, isTypeStr, hrun]
      have hcmd : execute_command env flag (JValue.jobj fs) =
          (Resp.error msg, [Ev.logErrorExecutingCommand msg, Ev.traceback]) := by
        simp [execute_command, hti, hint]
      rw [hcmd]
      exact ⟨rfl, by simp⟩
    · rcases hty : pyGet fs (lit "type") with _ | v
      · simp [resolvedCall, isTypeStr, hty] at hres
      · cases v with
        | jnull => simp [resolvedCall, isTypeStr, hty] at hres
        | jtrue => simp [resolvedCall, isTypeStr, hty] at hres
        | jfalse => simp [resolvedCall, isTypeStr, hty] at hres
        | jnum lx => simp [resolvedCall, isTypeStr, hty] at hres
        | jarr xs => simp [resolvedCall, isTypeStr, hty] at hres
        | jobj xs => simp [resolvedCall, isTypeStr, hty] at hres
        | jstr u =>
          have hne : ¬(u = lit "get_polyhaven_status") := by
            intro h
            apply hgps
            rw [hty, h]
            simp [isTypeStr]
          by_cases hm : u ∈ registryNames flag
          · have hres2 : u = name ∧ paramsOf (JValue.jobj fs) = arg := by
              simpa [resolvedCall, isTypeStr, hty, hne, hm] using hres
            obtain ⟨hname, harg⟩ := hres2
            subst hname
            subst harg
            simp only [paramsOf] at hrun
            have hint : execute_command_internal env flag (JValue.jobj fs) =
                (Except.ok (Resp.error msg),
                 [Ev.logExecutingHandler (some (JValue.jstr u)),
                  Ev.logErrorInHandler msg, Ev.traceback]) := by
              simp [execute_command_internal, hty, isTypeStr, hne, hm, hrun]
            by_cases hc : u ∈ contextTypes
            · have hti : typeInList (pyGet fs (lit "type")) contextTypes = true := by
                rw [hty]; simp [typeInList, hc]
              have hctxok := hctx (by simpa [cmdTypeOf] using hti)
              have hcmd : execute_command env flag (JValue.jobj fs) =
                  (Resp.error msg,
                   [Ev.logExecutingHandler (some (JValue.jstr u)),
                    Ev.logErrorInHandler msg, Ev.traceback]) := by
                simp [execute_command, hti, hctxok, hint]
              rw [hcmd]
              exact ⟨rfl, by simp⟩
            · have hti : typeInList (pyGet fs (lit "type")) contextTypes = false := by
                rw [hty]; simp [typeInList, hc]
              have hcmd : execute_command env flag (JValue.jobj fs) =
                  (Resp.error msg,
                   [Ev.logExecutingHandler (some (JValue.jstr u)),
                    Ev.logErrorInHandler msg, Ev.traceback]) := by
                simp [execute_command, hti, hint]
              rw [hcmd]
              exact ⟨rfl, by simp⟩
          · simp [resolvedCall, isTypeStr, hty, hne, hm] at hres

/-- Claim C4: for every command envelope whose resolved handler raises
during execution, dispatch catches the exception, records it with its
printed traceback, and returns the envelope with status error and the
exception text as message; a tick decoding such an envelope keeps the
server running, keeps the client connected, sends exactly the error
envelope, re-arms the timer, and the connection remains usable: a next
message decoded on it is dispatched and answered as usual. -/
theorem handler_exception_error_envelope (env : HandlerEnv) (flag : Bool)
    (cmd : JValue) (name : List Nat) (arg : JValue) (msg : List Nat)
    (hres : resolvedCall flag cmd = some (name, arg))
    (hrun : env.run name arg = Except.error msg)
    (hctx : typeInList (cmdTypeOf cmd) contextTypes = true →
      env.acquireContext = Except.ok ()) :
    (execute_command env flag cmd).1 = Resp.error msg ∧
    Ev.traceback ∈ (execute_command env flag cmd).2 ∧
    (∀ (s : ServerState) (inp : TickInput) (c : Nat) (bs : List Nat),
      s.running = true → s.client = some c → inp.recv = RecvEvent.data bs →
      bs ≠ [] → jsonOfBytes (s.buffer ++ bs) = some cmd →
      (tick env flag s inp).state.client = some c ∧
      (tick env flag s inp).state.running = true ∧
      (tick env flag s inp).sent = [Resp.error msg] ∧
      (tick env flag s inp).ret = true ∧
      (∀ (inp2 : TickInput) (bs2 : List Nat) (cmd2 : JValue),
        inp2.recv = RecvEvent.data bs2 → bs2 ≠ [] →
        jsonOfBytes bs2 = some cmd2 →
        (tick env flag (tick env flag s inp).state inp2).sent =
          [(execute_command env flag cmd2).1])) := by
  obtain ⟨h1e, h2e⟩ := exec_error_of_resolved env flag cmd name arg msg hres hrun hctx
  refine ⟨h1e, h2e, ?_⟩
  intro s inp c bs hs1 hs2 hs3 hs4 hs5
  rw [tick_decode_core env flag s inp c bs cmd hs1 hs2 hs3 hs4 hs5]
  refine ⟨hs2, hs1, by rw [h1e], rfl, ?_⟩
  intro inp2 bs2 cmd2 g1 g2 g3
  show (tick env flag { s with buffer := [] } inp2).sent =
    [(execute_command env flag cmd2).1]
  rw [tick_decode_core env flag { s with buffer := [] } inp2 c bs2 cmd2 hs1 hs2 g1 g2
    (by simpa using g3)]

/-- Witness for C4: a get_scene_info handler raising "boom" yields the
error envelope with that text and the tick keeps the connection. -/
theorem handler_exception_error_envelope_witness :
    (execute_command raisingEnv true
        (mkCmd (lit "get_scene_info") (JValue.jobj []))).1 =
      Resp.error (lit "boom") ∧
    (tick raisingEnv true ⟨true, true, some 7, [], true⟩
        ⟨none, false,
         RecvEvent.data (lit "\x7b\"type\":\"get_scene_info\",\"params\":\x7b\x7d\x7d")⟩).sent =
      [Resp.error (lit "boom")] := by
  have h := handler_exception_error_envelope raisingEnv true
    (mkCmd (lit "get_scene_info") (JValue.jobj []))
    (lit "get_scene_info") (JValue.jobj []) (lit "boom")
    rfl rfl (fun _ => rfl)
  refine ⟨h.1, ?_⟩
  have h2 := (h.2.2 ⟨true, true, some 7, [], true⟩
    ⟨none, false, RecvEvent.data (lit "\x7b\"type\":\"get_scene_info\",\"params\":\x7b\x7d\x7d")⟩ 7
    (lit "\x7b\"type\":\"get_scene_info\",\"params\":\x7b\x7d\x7d") rfl rfl rfl (by decide) ?_)
  · exact h2.2.2.1
  · rfl

/-- Claim C6: dispatch resolves a command type in the source order: the
get_polyhaven_status query is intercepted first and behaves identically
for every flag value (its dispatch equals the early status branch, which
ignores the params sent and does not consult the registry); every base
handler name resolves under both flag values; and every PolyHaven name
resolves exactly when the scene flag passed to that dispatch is true —
the flag is read at each dispatch, so a flag change takes effect on the
next dispatch with no restart — and with the flag false a PolyHaven name
dispatches to the unknown-command-type error envelope. -/
theorem dispatch_resolution_order (env : HandlerEnv) (ps : JValue) :
    (∀ flag : Bool,
      execute_command_internal env flag (mkCmd (lit "get_polyhaven_status") ps) =
        statusQueryResult env) ∧
    (∀ t, t ∈ baseNames → ∀ flag : Bool,
      (resolvedCall flag (mkCmd t ps)).isSome = true) ∧
    (∀ t, t ∈ polyNames →
      resolvedCall true (mkCmd t ps) = some (t, ps) ∧
      resolvedCall false (mkCmd t ps) = none ∧
      execute_command env false (mkCmd t ps) =
        (Resp.error (lit "Unknown command type: " ++ t), [])) := by
  refine ⟨fun _ => rfl, ?_, ?_⟩
  · intro t ht flag
    cases flag <;> fin_cases ht <;> rfl
  · intro t ht
    fin_cases ht <;> exact ⟨rfl, rfl, rfl⟩

/-- Witness for C6: the PolyHaven search command resolves with the flag on,
fails to resolve with the flag off, and a base handler resolves with the
flag off. -/
theorem dispatch_resolution_order_witness :
    resolvedCall true (mkCmd (lit "search_polyhaven_assets") JValue.jnull) =
      some (lit "search_polyhaven_assets", JValue.jnull) ∧
    resolvedCall false (mkCmd (lit "search_polyhaven_assets") JValue.jnull) =
      none ∧
    (resolvedCall false (mkCmd (lit "get_scene_info") JValue.jnull)).isSome =
      true := by
  obtain ⟨-, hbase, hpoly⟩ := dispatch_resolution_order trivEnv JValue.jnull
  obtain ⟨h1, h2, -⟩ := hpoly (lit "search_polyhaven_assets") (by decide)
  exact ⟨h1, h2, hbase (lit "get_scene_info") (by decide) false⟩

/-- Claim C7: the server holds at most one live client connection, and the
timer callback attempts an accept only when no client is held: whatever
connection is pending and whatever the tick input, a tick that starts
with an attached client either keeps exactly that client or drops to no
client (disconnect or receive error); a pending second client is never
attached while the first is. -/
theorem at_most_one_client_per_tick (env : HandlerEnv) (flag : Bool)
    (s : ServerState) (inp : TickInput) (c : Nat)
    (h : s.client = some c) :
    (tick env flag s inp).state.client = some c ∨
    (tick env flag s inp).state.client = none := by
  by_cases hr : s.running = false
  · left
    simp [tick, hr, h]
  · have hr2 : s.running = true := by
      revert hr; cases s.running <;> simp
    rcases hrecv : inp.recv with _ | bs | m
    · left
      simp [tick, hr2, h, hrecv]
    · by_cases hbs : bs = []
      · right
        simp [tick, hr2, h, hrecv, hbs]
      · by_cases hcl : (feedFramer s.buffer bs).closed = true
        · right
          simp [tick, hr2, h, hrecv, hbs, hcl]
        · rcases hem : (feedFramer s.buffer bs).emitted with _ | cmd
          · left
            simp [tick, hr2, h, hrecv, hbs, hcl, hem]
          · left
            simp [tick, hr2, h, hrecv, hbs, hcl, hem]
    · right
      simp [tick, hr2, h, hrecv]

/-- Witness for C7: with client 1 attached and client 2 pending, the tick
leaves client 1 attached (or, per the statement, no client). -/
theorem at_most_one_client_per_tick_witness :
    (tick trivEnv true ⟨true, true, some 1, [], true⟩
        ⟨some 2, false, RecvEvent.wouldBlock⟩).state.client = some 1 ∨
    (tick trivEnv true ⟨true, true, some 1, [], true⟩
        ⟨some 2, false, RecvEvent.wouldBlock⟩).state.client = none :=
  at_most_one_client_per_tick trivEnv true ⟨true, true, some 1, [], true⟩
    ⟨some 2, false, RecvEvent.wouldBlock⟩ 1 rfl

/-- Claim C8: stop is idempotent.  A second stop right after a first one
leaves the state unchanged (running stays false), performs no further
socket close or timer unregistration, and only prints the stopped
message; calling stop on an already stopped server is safe. -/
theorem stop_idempotent (s : ServerState) :
    (stop (stop s).1).1 = (stop s).1 ∧
    (stop s).1.running = false ∧
    (stop (stop s).1).1.running = false ∧
    (stop (stop s).1).2 = [Ev.logServerStopped] :=
  ⟨rfl, rfl, rfl, rfl⟩

/-- Claim C9: when bind or listen raises, start logs the failure, calls
stop, and returns: the server ends not running, with no scheduler hook
registered, no listen socket and no client; exactly one bind attempt is
made (no retry), and the failure is fatal only to start — start is a
total function of the model, the exception does not escape to the host
process. -/
theorem start_bind_failure_leaves_stopped (s : ServerState) (msg : List Nat) :
    (start s (Except.error msg)).1.running = false ∧
    (start s (Except.error msg)).1.timerRegistered = false ∧
    (start s (Except.error msg)).1.sock = false ∧
    (start s (Except.error msg)).1.client = none ∧
    (start s (Except.error msg)).2.countP isBindAttempt = 1 ∧
    Ev.logFailedToStart msg ∈ (start s (Except.error msg)).2 ∧
    Ev.registerTimer ∉ (start s (Except.error msg)).2 := by
  cases s with
  | mk running sock client buffer timer =>
    cases timer <;> rcases client with _ | c <;>
      simp [start, stop, isBindAttempt, List.countP_cons, List.countP_nil]
